import Mathlib

/-!
Verification of the safe-cli command-approval server (`server.py`).

The server keeps four logical tables in its store: root users (accounts),
endpoints (registered agents), a per-account command blacklist, and the
approval-request ledger.  Every route handler reads and writes these tables
through simple equality filters and conditional updates, so the whole
workflow is embedded here as pure functions over an explicit `DB` state.

Modelling conventions:
* Row ids are opaque strings; ids assigned by the store at insertion time
  are passed in as an explicit `newId` argument.
* Timestamps are integers (`ℤ`); `datetime.now` becomes an explicit `now`
  argument and the difference `now - created_at` with strict comparison
  against 30 mirrors `(current_time - request_time).total_seconds() > 30`
  and `time_diff > timedelta(seconds=30)`.  All stored timestamps are
  parseable by construction, so the unreachable parse-failure branches of
  the source are not represented.
* Each handler returns its outcome together with the post-state of the
  store; a branch that writes nothing returns the state unchanged.
* Debug printing, HTTP plumbing and the Supabase client setup have no
  effect on the data and are not represented.
-/

namespace SafeCli

/-- Status values stored in the `approval_requests` table: `pending`,
`approved`, `denied`, and the expiry sweeper's `rejected`. -/
inductive Status where
  | pending
  | approved
  | denied
  | rejected
  deriving DecidableEq, BEq, Repr

/-- The derived `==` on `Status` agrees with propositional equality. -/
instance : LawfulBEq Status :=
  ⟨fun {x y} h => by cases x <;> cases y <;> first | rfl | exact absurd h (by decide),
   fun {x} => by cases x <;> rfl⟩

/-- The string form of a stored status, as returned by
`check_approval`'s final `jsonify({"status": status})`. -/
def statusString : Status → String
  | Status.pending => "pending"
  | Status.approved => "approved"
  | Status.denied => "denied"
  | Status.rejected => "rejected"

/-- A row of the `root_users` table (only the columns the approval
workflow reads: `id` and `is_active`). -/
structure RootUser where
  id : String
  is_active : Bool
  deriving DecidableEq, Repr

/-- A row of the `endpoints` table. -/
structure Endpoint where
  id : String
  root_user_id : String
  name : String
  hostname : String
  ip_address : String
  user_name : String
  os_info : String
  is_active : Bool
  last_seen : ℤ
  deriving DecidableEq, Repr

/-- A row of the `blacklist` table: one blocked command per account. -/
structure BlacklistEntry where
  root_user_id : String
  command : String
  deriving DecidableEq, Repr

/-- A row of the `approval_requests` table. -/
structure ApprovalRequest where
  id : String
  endpoint_id : String
  user_name : String
  command : String
  status : Status
  created_at : ℤ
  updated_at : Option ℤ
  deriving DecidableEq, Repr

/-- The persistent store the Flask handlers read and write. -/
structure DB where
  root_users : List RootUser
  endpoints : List Endpoint
  blacklist : List BlacklistEntry
  approval_requests : List ApprovalRequest
  deriving DecidableEq, Repr

/-- The expiry comparison used at both sweep sites
(`(current_time - request_time).total_seconds() > 30` in `get_requests`
and `time_diff > timedelta(seconds=30)` in `check_approval`). -/
def isExpired (now created : ℤ) : Bool :=
  decide (30 < now - created)

/-- Outcome of `POST /api/agent/check_command`. -/
inductive CheckResult where
  | missingFields
  | blocked (request_id : String)
  | allowed
  deriving DecidableEq, Repr

/-- `check_command` (server.py lines 224-295).  The handler validates that
the keys `command`, `root_user_id`, `endpoint_id` are present in the JSON
body (`all(key in data for key in [...])` tests presence only), looks the
command up in the account's blacklist by exact equality, and if found
inserts a fresh `pending` approval request, taking the acting user name
from the endpoint row when one exists and the literal `"unknown"`
otherwise.  Absent inputs are modelled as `none`. -/
def check_command (db : DB) (command root_user_id endpoint_id : Option String)
    (now : ℤ) (newId : String) : CheckResult × DB :=
  match command, root_user_id, endpoint_id with
  | some command, some root_user_id, some endpoint_id =>
    let blacklist_response :=
      db.blacklist.filter (fun b => b.root_user_id == root_user_id && b.command == command)
    if blacklist_response.isEmpty then
      (CheckResult.allowed, db)
    else
      let endpoint_response := db.endpoints.filter (fun e => e.id == endpoint_id)
      let user_name :=
        match endpoint_response.head? with
        | some e => e.user_name
        | none => "unknown"
      let req : ApprovalRequest :=
        { id := newId
          endpoint_id := endpoint_id
          user_name := user_name
          command := command
          status := Status.pending
          created_at := now
          updated_at := none }
      (CheckResult.blocked newId, { db with approval_requests := db.approval_requests ++ [req] })
  | _, _, _ => (CheckResult.missingFields, db)

/-- Python's `str.strip()`: drop leading and trailing whitespace.  Written
over the character list so that it evaluates inside the kernel. -/
def strip (s : String) : String :=
  String.mk (((s.data.dropWhile Char.isWhitespace).reverse.dropWhile Char.isWhitespace).reverse)

/-- Outcome of `POST /api/blacklist`. -/
inductive BlacklistResult where
  | userRequired
  | invalidFormat
  | success
  deriving DecidableEq, Repr

/-- `update_blacklist` (server.py lines 297-322).  Requires a user id and a
list-valued `blacklist` field, deletes every existing entry of the account,
then inserts `cmd.strip()` for each member whose stripped form is
non-empty.  A body without a list is modelled as `none`. -/
def update_blacklist (db : DB) (user_id : Option String)
    (blacklist : Option (List String)) : BlacklistResult × DB :=
  match user_id with
  | none => (BlacklistResult.userRequired, db)
  | some uid =>
    match blacklist with
    | none => (BlacklistResult.invalidFormat, db)
    | some cmds =>
      let kept := db.blacklist.filter (fun b => !(b.root_user_id == uid))
      let commands_data :=
        (cmds.filter (fun cmd => !(strip cmd).isEmpty)).map
          (fun cmd => { root_user_id := uid, command := strip cmd : BlacklistEntry })
      (BlacklistResult.success, { db with blacklist := kept ++ commands_data })

/-- Outcome of `POST /api/register_endpoint`. -/
inductive RegisterResult where
  | invalidAccount
  | registered (endpoint_id : String)
  deriving DecidableEq, Repr

/-- `register_endpoint` (server.py lines 324-373).  After checking the
account is an active root user, looks for an endpoint with the same
(hostname, user_name, root_user_id); if one exists its name, address,
os_info and last-seen are refreshed and `is_active` is set back to true,
otherwise a fresh active row is inserted.  The required-field boundary
check is the same key-presence test as `check_command`; the operation is
modelled from its field values onward. -/
def register_endpoint (db : DB) (root_user_id name hostname user_name os_info client_ip : String)
    (now : ℤ) (newId : String) : RegisterResult × DB :=
  let user_check := db.root_users.filter (fun u => u.id == root_user_id && u.is_active)
  if user_check.isEmpty then
    (RegisterResult.invalidAccount, db)
  else
    let existing :=
      db.endpoints.filter (fun e =>
        e.hostname == hostname && e.user_name == user_name && e.root_user_id == root_user_id)
    match existing.head? with
    | some e0 =>
      let db' :=
        { db with endpoints :=
            db.endpoints.map (fun e =>
              if e.id == e0.id then
                { e with name := name, ip_address := client_ip, os_info := os_info,
                         last_seen := now, is_active := true }
              else e) }
      (RegisterResult.registered e0.id, db')
    | none =>
      let newEp : Endpoint :=
        { id := newId
          root_user_id := root_user_id
          name := name
          hostname := hostname
          ip_address := client_ip
          user_name := user_name
          os_info := os_info
          is_active := true
          last_seen := now }
      (RegisterResult.registered newId, { db with endpoints := db.endpoints ++ [newEp] })

/-- Outcome of `POST /api/approve/<id>` and `POST /api/deny/<id>`. -/
inductive DecideResult where
  | userRequired
  | notFound
  | accessDenied
  | alreadyProcessed
  | decided (outcome : Status)
  deriving DecidableEq, Repr

/-- The shared body of `approve_request` (server.py lines 685-720) and
`deny_request` (lines 722-757), which differ only in the status written.
The handler resolves the request, checks the request's endpoint belongs to
the calling account, then performs the conditional update
`.eq('id', req_id).eq('status', 'pending')`; when that update affects no
row it reports "Request not found or already processed" and the store is
unchanged. -/
def process_decision (db : DB) (req_id : String) (user_id : Option String)
    (outcome : Status) (now : ℤ) : DecideResult × DB :=
  match user_id with
  | none => (DecideResult.userRequired, db)
  | some uid =>
    let request_check := db.approval_requests.filter (fun r => r.id == req_id)
    match request_check.head? with
    | none => (DecideResult.notFound, db)
    | some req_data =>
      let endpoint_check :=
        db.endpoints.filter (fun e => e.id == req_data.endpoint_id && e.root_user_id == uid)
      if endpoint_check.isEmpty then
        (DecideResult.accessDenied, db)
      else
        let affected :=
          db.approval_requests.filter (fun q => q.id == req_id && q.status == Status.pending)
        if affected.isEmpty then
          (DecideResult.alreadyProcessed, db)
        else
          (DecideResult.decided outcome,
           { db with approval_requests :=
               db.approval_requests.map (fun q =>
                 if q.id == req_id && q.status == Status.pending then
                   { q with status := outcome, updated_at := some now }
                 else q) })

/-- `approve_request`: `process_decision` writing `approved`. -/
def approve_request (db : DB) (req_id : String) (user_id : Option String)
    (now : ℤ) : DecideResult × DB :=
  process_decision db req_id user_id Status.approved now

/-- `deny_request`: `process_decision` writing `denied`. -/
def deny_request (db : DB) (req_id : String) (user_id : Option String)
    (now : ℤ) : DecideResult × DB :=
  process_decision db req_id user_id Status.denied now

/-- The ids collected by the expiry sweep of `get_requests`: pending rows
whose age exceeds 30 seconds. -/
def expired_ids (reqs : List ApprovalRequest) (now : ℤ) : List String :=
  ((reqs.filter (fun r => r.status == Status.pending)).filter
      (fun r => isExpired now r.created_at)).map (fun r => r.id)

/-- One entry of the mapping returned by `get_requests`. -/
structure PendingInfo where
  user : String
  command : String
  timestamp : ℤ
  endpoint_name : String
  endpoint_hostname : String
  endpoint_user : String
  deriving DecidableEq, Repr

/-- `get_requests` (server.py lines 594-683).  Without a user id the
handler answers with an empty listing.  Otherwise it reads every `pending`
row, batches the over-age ones into a single update setting
`status = rejected, updated_at = now`, drops them from its working set,
and joins the survivors against the calling account's endpoints: a row
whose endpoint is not among them is silently skipped.  The source scans
rows most-recent-first for display; the result is a mapping keyed by
request id, whose iteration order carries no meaning, so the embedding
keeps store order. -/
def get_requests (db : DB) (user_id : Option String) (now : ℤ) :
    List (String × PendingInfo) × DB :=
  match user_id with
  | none => ([], db)
  | some uid =>
    let pendingRows := db.approval_requests.filter (fun r => r.status == Status.pending)
    let endpoints_lookup := db.endpoints.filter (fun e => e.root_user_id == uid)
    let expired_request_ids := expired_ids db.approval_requests now
    let db' :=
      if expired_request_ids.isEmpty then db
      else
        { db with approval_requests :=
            db.approval_requests.map (fun r =>
              if expired_request_ids.contains r.id then
                { r with status := Status.rejected, updated_at := some now }
              else r) }
    let remaining := pendingRows.filter (fun r => !(expired_request_ids.contains r.id))
    let pending :=
      remaining.filterMap (fun r =>
        (endpoints_lookup.find? (fun e => e.id == r.endpoint_id)).map (fun e =>
          (r.id,
           { user := r.user_name
             command := r.command
             timestamp := r.created_at
             endpoint_name := e.name
             endpoint_hostname := e.hostname
             endpoint_user := e.user_name : PendingInfo })))
    (pending, db')

/-- `check_approval` (server.py lines 759-816).  A missing row is answered
as `expired`.  For an existing row the handler first applies the expiry
test to the `created_at` column; past the TTL it updates the row to
`rejected` (the update is keyed on the id alone, with no condition on the
current status) and answers `expired`; otherwise it answers the stored
status string verbatim. -/
def check_approval (db : DB) (req_id : String) (now : ℤ) : String × DB :=
  let response := db.approval_requests.filter (fun r => r.id == req_id)
  match response.head? with
  | none => ("expired", db)
  | some request_data =>
    if isExpired now request_data.created_at then
      ("expired",
       { db with approval_requests :=
           db.approval_requests.map (fun q =>
             if q.id == req_id then
               { q with status := Status.rejected, updated_at := some now }
             else q) })
    else
      (statusString request_data.status, db)

/-! ## Helper lemmas -/

/-- `find?` returns the element when it is the only member of the list
satisfying the predicate. -/
theorem find_of_mem_unique {α : Type} {p : α → Bool} {l : List α} {a : α}
    (ha : a ∈ l) (hpa : p a = true) (hu : ∀ b ∈ l, p b = true → b = a) :
    l.find? p = some a := by
  induction l with
  | nil => cases ha
  | cons x xs ih =>
    by_cases hx : p x = true
    · rw [List.find?_cons_of_pos _ hx]
      exact congrArg some (hu x (List.mem_cons_self x xs) hx)
    · rw [List.find?_cons_of_neg _ hx]
      rcases List.mem_cons.mp ha with h | h
      · exact absurd (h ▸ hpa) hx
      · exact ih h fun b hb hpb => hu b (List.mem_cons_of_mem _ hb) hpb

/-- Filtering commutes with a map that does not change the value of the
filter predicate. -/
theorem filter_map_invariant {α : Type} (f : α → α) (p : α → Bool)
    (h : ∀ a, p (f a) = p a) (l : List α) :
    (l.map f).filter p = (l.filter p).map f := by
  induction l with
  | nil => rfl
  | cons x xs ih =>
    cases hx : p x with
    | true => simp [List.filter_cons, h x, hx, ih]
    | false => simp [List.filter_cons, h x, hx, ih]

/-! ## Example states used by closed statements -/

/-- The empty store. -/
def emptyDB : DB :=
  { root_users := [], endpoints := [], blacklist := [], approval_requests := [] }

/-- A store whose only content is the blacklist entry ("u", "rm"). -/
def blacklistDB : DB :=
  { root_users := [], endpoints := [], blacklist := [⟨"u", "rm"⟩], approval_requests := [] }

/-- A store holding a single approval request that has already reached the
terminal status `approved` (created at time 0, decided at time 5). -/
def approvedDB : DB :=
  { root_users := [], endpoints := [], blacklist := [],
    approval_requests :=
      [{ id := "r1", endpoint_id := "e1", user_name := "alice", command := "rm",
         status := Status.approved, created_at := 0, updated_at := some 5 }] }

/-- A store holding a single approval request already swept to `rejected`
(created at time 0, swept at time 40). -/
def rejectedDB : DB :=
  { root_users := [], endpoints := [], blacklist := [],
    approval_requests :=
      [{ id := "r1", endpoint_id := "e1", user_name := "alice", command := "rm",
         status := Status.rejected, created_at := 0, updated_at := some 40 }] }

/-- With all three keys present, `check_command` never reports missing
fields: the boundary check tests key presence only. -/
theorem check_command_some_ne_missing (db : DB) (c u e : String) (now : ℤ) (newId : String) :
    (check_command db (some c) (some u) (some e) now newId).fst ≠ CheckResult.missingFields := by
  simp only [check_command]
  split <;> simp

/-- C5: for every account and every command that is not an exact-match
member of the account's blacklist, evaluate returns `blocked = false` and
leaves the approval ledger (indeed the whole store) unchanged. -/
theorem evaluate_allowed_frame (db : DB) (cmd uid eid : String) (now : ℤ) (newId : String)
    (hbl : db.blacklist.filter (fun b => b.root_user_id == uid && b.command == cmd) = []) :
    check_command db (some cmd) (some uid) (some eid) now newId = (CheckResult.allowed, db) := by
  simp [check_command, hbl]

/-- Witness for `evaluate_allowed_frame`: "ls" is not in the blacklist
{"rm"} of account "u". -/
theorem evaluate_allowed_frame_witness :
    check_command blacklistDB (some "ls") (some "u") (some "e1") 0 "r1" =
      (CheckResult.allowed, blacklistDB) :=
  evaluate_allowed_frame blacklistDB "ls" "u" "e1" 0 "r1" (by decide)

/-- C4: for every blacklisted command, evaluate appends exactly one new
approval request, in `pending` status with `created_at = now`, referencing
the caller-supplied endpoint id, and returns `blocked` with the new row's
id; when no endpoint row with that id exists the acting user name falls
back to "unknown" and the request is created all the same. -/
theorem evaluate_blocked_creates_request (db : DB) (cmd uid eid : String) (now : ℤ)
    (newId : String)
    (hbl : db.blacklist.filter (fun b => b.root_user_id == uid && b.command == cmd) ≠ []) :
    ∃ req : ApprovalRequest,
      check_command db (some cmd) (some uid) (some eid) now newId =
        (CheckResult.blocked newId,
         { db with approval_requests := db.approval_requests ++ [req] }) ∧
      req.id = newId ∧ req.status = Status.pending ∧ req.created_at = now ∧
      req.endpoint_id = eid ∧ req.command = cmd ∧
      (db.endpoints.filter (fun e => e.id == eid) = [] → req.user_name = "unknown") := by
  refine ⟨{ id := newId
            endpoint_id := eid
            user_name :=
              match (db.endpoints.filter (fun e => e.id == eid)).head? with
              | some e => e.user_name
              | none => "unknown"
            command := cmd
            status := Status.pending
            created_at := now
            updated_at := none },
          ?_, rfl, rfl, rfl, rfl, rfl, ?_⟩
  · simp [check_command, List.isEmpty_eq_false.mpr hbl]
  · intro h
    rw [h]
    rfl

/-- Witness for `evaluate_blocked_creates_request`: "rm" is blacklisted for
account "u" and no endpoint "e1" is registered, so the created request
carries user name "unknown". -/
theorem evaluate_blocked_creates_request_witness :
    ∃ req : ApprovalRequest,
      check_command blacklistDB (some "rm") (some "u") (some "e1") 0 "r1" =
        (CheckResult.blocked "r1",
         { blacklistDB with approval_requests := blacklistDB.approval_requests ++ [req] }) ∧
      req.id = "r1" ∧ req.status = Status.pending ∧ req.created_at = 0 ∧
      req.endpoint_id = "e1" ∧ req.command = "rm" ∧ req.user_name = "unknown" := by
  obtain ⟨req, h1, h2, h3, h4, h5, h6, h7⟩ :=
    evaluate_blocked_creates_request blacklistDB "rm" "u" "e1" 0 "r1" (by decide)
  exact ⟨req, h1, h2, h3, h4, h5, h6, h7 (by decide)⟩

/-- C9 counterexample: an empty (but present) command string is not
rejected at the boundary — the handler only tests key presence, so the
call proceeds and is answered `allowed`, not `missingFields`. -/
theorem evaluate_empty_field_counterexample :
    ("" : String).isEmpty = true ∧
    check_command blacklistDB (some "") (some "u") (some "e1") 0 "r1" =
      (CheckResult.allowed, blacklistDB) := by
  decide

/-- C9 amended: evaluate fails with `missingFields` (and leaves the store
unchanged) exactly when one of the three keys is absent from the payload;
present-but-empty values pass the boundary check. -/
theorem missing_fields_boundary (db : DB) (c u e : Option String) (now : ℤ) (newId : String) :
    ((check_command db c u e now newId).fst = CheckResult.missingFields ↔
      (c = none ∨ u = none ∨ e = none)) ∧
    ((c = none ∨ u = none ∨ e = none) → (check_command db c u e now newId).snd = db) := by
  rcases c with _ | c
  · exact ⟨by simp [check_command], fun _ => rfl⟩
  · rcases u with _ | u
    · exact ⟨by simp [check_command], fun _ => rfl⟩
    · rcases e with _ | e
      · exact ⟨by simp [check_command], fun _ => rfl⟩
      · refine ⟨⟨fun h => absurd h (check_command_some_ne_missing db c u e now newId), ?_⟩, ?_⟩
        · rintro (h | h | h) <;> cases h
        · rintro (h | h | h) <;> cases h

/-- Witness for `missing_fields_boundary`: a payload without the `command`
key fails with `missingFields` and writes nothing. -/
theorem missing_fields_boundary_witness :
    (check_command emptyDB none (some "u") (some "e1") 0 "r1").fst =
      CheckResult.missingFields ∧
    (check_command emptyDB none (some "u") (some "e1") 0 "r1").snd = emptyDB := by
  have h := missing_fields_boundary emptyDB none (some "u") (some "e1") 0 "r1"
  exact ⟨h.1.mpr (Or.inl rfl), h.2 (Or.inl rfl)⟩

/-- C6 counterexample: `replace` does not deduplicate — handing in
["rm", "rm"] leaves two identical entries for the account, so a command
can appear more than once. -/
theorem replace_duplicates_counterexample :
    ¬ (((update_blacklist emptyDB (some "u") (some ["rm", "rm"])).snd.blacklist.filter
          (fun b => b.root_user_id == "u" && b.command == "rm")).length ≤ 1) := by
  decide

/-- C6 amended: `replace` removes every existing entry of the account and
inserts the trimmed, non-empty members of the input in order and with
their multiplicities (no deduplication); entries of other accounts are
untouched. -/
theorem replace_semantics (db : DB) (uid : String) (cmds : List String) :
    (update_blacklist db (some uid) (some cmds)).fst = BlacklistResult.success ∧
    (update_blacklist db (some uid) (some cmds)).snd.blacklist.filter
        (fun b => b.root_user_id == uid) =
      (cmds.filter (fun cmd => !(strip cmd).isEmpty)).map
        (fun cmd => { root_user_id := uid, command := strip cmd : BlacklistEntry }) ∧
    (update_blacklist db (some uid) (some cmds)).snd.blacklist.filter
        (fun b => !(b.root_user_id == uid)) =
      db.blacklist.filter (fun b => !(b.root_user_id == uid)) := by
  refine ⟨rfl, ?_, ?_⟩
  · show ((db.blacklist.filter fun b => !(b.root_user_id == uid)) ++ _).filter _ = _
    rw [List.filter_append]
    have h1 : ((db.blacklist.filter fun b => !(b.root_user_id == uid)).filter
        fun b => b.root_user_id == uid) = [] := by
      refine List.filter_eq_nil_iff.mpr fun b hb => ?_
      have hb' := List.of_mem_filter hb
      simp only [Bool.not_eq_true'] at hb'
      simp [hb']
    have h2 : (((cmds.filter fun cmd => !(strip cmd).isEmpty)).map
          (fun cmd => { root_user_id := uid, command := strip cmd : BlacklistEntry })).filter
        (fun b => b.root_user_id == uid) =
        ((cmds.filter fun cmd => !(strip cmd).isEmpty)).map
          (fun cmd => { root_user_id := uid, command := strip cmd : BlacklistEntry }) := by
      refine List.filter_eq_self.mpr fun b hb => ?_
      rcases List.mem_map.mp hb with ⟨c, _, rfl⟩
      simp
    rw [h1, h2, List.nil_append]
  · show ((db.blacklist.filter fun b => !(b.root_user_id == uid)) ++ _).filter _ = _
    rw [List.filter_append]
    have h1 : ((db.blacklist.filter fun b => !(b.root_user_id == uid)).filter
        fun b => !(b.root_user_id == uid)) =
        db.blacklist.filter fun b => !(b.root_user_id == uid) := by
      refine List.filter_eq_self.mpr fun b hb => ?_
      have hb' := List.of_mem_filter hb
      exact hb'
    have h2 : (((cmds.filter fun cmd => !(strip cmd).isEmpty)).map
          (fun cmd => { root_user_id := uid, command := strip cmd : BlacklistEntry })).filter
        (fun b => !(b.root_user_id == uid)) = [] := by
      refine List.filter_eq_nil_iff.mpr fun b hb => ?_
      rcases List.mem_map.mp hb with ⟨c, _, rfl⟩
      simp
    rw [h1, h2, List.append_nil]

/-- C1: the code violates the terminal-status invariant.  `check_approval`
applies its expiry update keyed on the id alone — no `status = 'pending'`
condition — so polling a 31-second-old request that a human already
`approved` overwrites the terminal status with `rejected` and answers
`expired`. -/
theorem check_approval_overwrites_terminal :
    approvedDB.approval_requests.map (fun q => q.status) = [Status.approved] ∧
    (check_approval approvedDB "r1" 31).fst = "expired" ∧
    ((check_approval approvedDB "r1" 31).snd.approval_requests.map (fun q => q.status)) =
      [Status.rejected] := by
  decide

/-- C2 counterexample: for a stored `rejected` row that is not older than
the TTL, `check_approval` answers the literal string "rejected" — the
rejected-to-expired translation only happens through the over-age branch.
-/
theorem check_status_rejected_verbatim_counterexample :
    rejectedDB.approval_requests.map (fun q => q.status) = [Status.rejected] ∧
    isExpired 10 0 = false ∧
    (check_approval rejectedDB "r1" 10).fst = "rejected" := by
  decide

/-- C2 amended: for a stored row that is not older than the TTL,
`check_approval` reports the stored status string verbatim — `approved`
and `denied` as the claim says, but also a literal `rejected`; a stored
`rejected` is surfaced as `expired` exactly when the row is older than the
TTL, which holds for every row the sweeper itself rejected. -/
theorem check_status_reporting (db : DB) (r : ApprovalRequest) (now : ℤ)
    (huniq : db.approval_requests.filter (fun q => q.id == r.id) = [r])
    (_hnp : r.status ≠ Status.pending) :
    (isExpired now r.created_at = false →
      check_approval db r.id now = (statusString r.status, db)) ∧
    (isExpired now r.created_at = true → (check_approval db r.id now).fst = "expired") := by
  constructor
  · intro hfresh
    simp [check_approval, huniq, hfresh]
  · intro hexp
    simp [check_approval, huniq, hexp]

/-- Witness for `check_status_reporting`: the fresh `rejected` row of
`rejectedDB` is reported verbatim at `now = 10`. -/
theorem check_status_reporting_witness :
    check_approval rejectedDB "r1" 10 = ("rejected", rejectedDB) :=
  (check_status_reporting rejectedDB
      { id := "r1", endpoint_id := "e1", user_name := "alice", command := "rm",
        status := Status.rejected, created_at := 0, updated_at := some 40 } 10
      (by decide) (by decide)).1 (by decide)

/-- When `r` is the only ledger row carrying its id, any member of the
ledger with that id is `r` itself. -/
theorem eq_of_id_unique {l : List ApprovalRequest} {r q : ApprovalRequest}
    (huniq : l.filter (fun q => q.id == r.id) = [r]) (hq : q ∈ l)
    (hid : (q.id == r.id) = true) : q = r := by
  have hmem : q ∈ l.filter (fun q => q.id == r.id) := List.mem_filter.mpr ⟨hq, hid⟩
  rw [huniq] at hmem
  simpa using hmem

/-- The conjunction filter used by the conditional update, split into the
id filter followed by the status filter. -/
theorem filter_id_and_pending (l : List ApprovalRequest) (rid : String) :
    l.filter (fun q => q.id == rid && q.status == Status.pending) =
      (l.filter (fun q => q.id == rid)).filter (fun q => q.status == Status.pending) := by
  rw [List.filter_filter]
  exact List.filter_congr fun a _ => Bool.and_comm _ _

/-- Evaluation of the decision handler on a still-pending row: the
conditional update fires and writes the outcome and `updated_at = now`
into the row. -/
theorem process_decision_pending (db : DB) (r : ApprovalRequest) (uid : String)
    (outcome : Status) (now : ℤ)
    (huniq : db.approval_requests.filter (fun q => q.id == r.id) = [r])
    (hown : db.endpoints.filter (fun e => e.id == r.endpoint_id && e.root_user_id == uid) ≠ [])
    (hp : r.status = Status.pending) :
    process_decision db r.id (some uid) outcome now =
      (DecideResult.decided outcome,
       { db with approval_requests :=
           db.approval_requests.map (fun q =>
             if q.id == r.id then { q with status := outcome, updated_at := some now }
             else q) }) := by
  have hown' : (db.endpoints.filter
      (fun e => e.id == r.endpoint_id && e.root_user_id == uid)).isEmpty = false :=
    List.isEmpty_eq_false.mpr hown
  have hpend : (r.status == Status.pending) = true := by simp [hp]
  have haff1 : db.approval_requests.filter
      (fun q => q.id == r.id && q.status == Status.pending) = [r] := by
    rw [filter_id_and_pending, huniq]
    simp [List.filter_cons, hpend]
  have hmap : db.approval_requests.map (fun q =>
        if q.id == r.id && q.status == Status.pending then
          { q with status := outcome, updated_at := some now }
        else q) =
      db.approval_requests.map (fun q =>
        if q.id == r.id then { q with status := outcome, updated_at := some now }
        else q) := by
    refine List.map_congr_left fun q hq => ?_
    by_cases hid : (q.id == r.id) = true
    · have hqr : q = r := eq_of_id_unique huniq hq hid
      subst hqr
      simp [hid, hpend]
    · have hid' : (q.id == r.id) = false := by simpa using hid
      simp [hid']
  simp only [process_decision, huniq, List.head?_cons, hown', Bool.false_eq_true,
    if_false, haff1, List.isEmpty_cons, ite_false]
  rw [hmap]

/-- Evaluation of the decision handler on a row that is no longer
`pending`: the conditional update affects zero rows and nothing is
written. -/
theorem process_decision_nonpending (db : DB) (r : ApprovalRequest) (uid : String)
    (outcome : Status) (now : ℤ)
    (huniq : db.approval_requests.filter (fun q => q.id == r.id) = [r])
    (hown : db.endpoints.filter (fun e => e.id == r.endpoint_id && e.root_user_id == uid) ≠ [])
    (hnp : r.status ≠ Status.pending) :
    process_decision db r.id (some uid) outcome now = (DecideResult.alreadyProcessed, db) := by
  have hown' : (db.endpoints.filter
      (fun e => e.id == r.endpoint_id && e.root_user_id == uid)).isEmpty = false :=
    List.isEmpty_eq_false.mpr hown
  have hpend : (r.status == Status.pending) = false := beq_eq_false_iff_ne.mpr hnp
  have haff2 : db.approval_requests.filter
      (fun q => q.id == r.id && q.status == Status.pending) = [] := by
    rw [filter_id_and_pending, huniq]
    simp [List.filter_cons, hpend]
  simp only [process_decision, huniq, List.head?_cons, hown', Bool.false_eq_true,
    if_false, haff2, List.isEmpty_nil, ite_true]

/-- The decision handler's update keeps every row id unchanged. -/
theorem decision_update_keeps_id (rid : String) (outcome : Status) (now : ℤ) :
    ∀ q : ApprovalRequest,
      ((if q.id == rid then { q with status := outcome, updated_at := some now }
        else q).id == rid) = (q.id == rid) := by
  intro q
  by_cases hid : (q.id == rid) = true <;> simp [hid]

/-- C3: `decide` transitions a request only while it is still `pending` —
on a pending row it writes the outcome and `updated_at = now`; on a
non-pending row the conditional update affects zero rows, the handler
fails with the already-processed conflict, and the store is unchanged; in
particular of two sequential decide calls on the same request exactly the
first succeeds. -/
theorem decide_conditional_update (db : DB) (r : ApprovalRequest) (uid : String)
    (outcome outcome2 : Status) (now now2 : ℤ)
    (huniq : db.approval_requests.filter (fun q => q.id == r.id) = [r])
    (hown : db.endpoints.filter (fun e => e.id == r.endpoint_id && e.root_user_id == uid) ≠ [])
    (hout : outcome ≠ Status.pending) :
    (r.status = Status.pending →
      process_decision db r.id (some uid) outcome now =
        (DecideResult.decided outcome,
         { db with approval_requests :=
             db.approval_requests.map (fun q =>
               if q.id == r.id then { q with status := outcome, updated_at := some now }
               else q) })) ∧
    (r.status ≠ Status.pending →
      process_decision db r.id (some uid) outcome now = (DecideResult.alreadyProcessed, db)) ∧
    (r.status = Status.pending →
      process_decision (process_decision db r.id (some uid) outcome now).snd
          r.id (some uid) outcome2 now2 =
        (DecideResult.alreadyProcessed, (process_decision db r.id (some uid) outcome now).snd)) := by
  refine ⟨fun hp => process_decision_pending db r uid outcome now huniq hown hp,
          fun hnp => process_decision_nonpending db r uid outcome now huniq hown hnp,
          fun hp => ?_⟩
  rw [process_decision_pending db r uid outcome now huniq hown hp]
  have hfm : (db.approval_requests.map (fun q =>
        if q.id == r.id then { q with status := outcome, updated_at := some now }
        else q)).filter (fun q => q.id == r.id) =
      [{ r with status := outcome, updated_at := some now }] := by
    rw [filter_map_invariant _ _ (decision_update_keeps_id r.id outcome now), huniq]
    simp
  exact process_decision_nonpending
      { db with approval_requests :=
          db.approval_requests.map (fun q =>
            if q.id == r.id then { q with status := outcome, updated_at := some now }
            else q) }
      { r with status := outcome, updated_at := some now } uid outcome2 now2 hfm hown hout

/-- A store with one endpoint "e1" of account "u" and one pending request
"r1" on that endpoint, created at time 0. -/
def decideDB : DB :=
  { root_users := [⟨"u", true⟩],
    endpoints := [⟨"e1", "u", "laptop", "host1", "10.0.0.1", "alice", "linux", true, 0⟩],
    blacklist := [],
    approval_requests := [⟨"r1", "e1", "alice", "rm", Status.pending, 0, none⟩] }

/-- Witness for `decide_conditional_update`: approving the pending request
of `decideDB` succeeds, and a second (denying) decision on the same
request fails with the conflict and leaves the store as the first call
left it. -/
theorem decide_conditional_update_witness :
    (process_decision decideDB "r1" (some "u") Status.approved 5).fst =
      DecideResult.decided Status.approved ∧
    process_decision (process_decision decideDB "r1" (some "u") Status.approved 5).snd
        "r1" (some "u") Status.denied 6 =
      (DecideResult.alreadyProcessed,
       (process_decision decideDB "r1" (some "u") Status.approved 5).snd) := by
  have h := decide_conditional_update decideDB
      ⟨"r1", "e1", "alice", "rm", Status.pending, 0, none⟩ "u"
      Status.approved Status.denied 5 6 (by decide) (by decide) (by decide)
  exact ⟨by rw [h.1 rfl], h.2.2 rfl⟩

/-- C10: the expiry comparison is strict at both sweep sites — a pending
request aged exactly 30 seconds is not expired, `check_approval` still
answers `pending` without touching the store, and the request is still
decidable; the `get_requests` sweep collects it, and `check_approval`
reports `expired`, exactly when `now - created_at` exceeds 30 strictly. -/
theorem expiry_boundary_strict (db : DB) (r : ApprovalRequest) (uid : String) (now : ℤ)
    (huniq : db.approval_requests.filter (fun q => q.id == r.id) = [r])
    (hp : r.status = Status.pending)
    (hage : now - r.created_at = 30)
    (hown : db.endpoints.filter (fun e => e.id == r.endpoint_id && e.root_user_id == uid) ≠ []) :
    isExpired now r.created_at = false ∧
    check_approval db r.id now = ("pending", db) ∧
    (process_decision db r.id (some uid) Status.approved now).fst =
      DecideResult.decided Status.approved ∧
    r.id ∉ expired_ids db.approval_requests now ∧
    (∀ t : ℤ, 30 < t - r.created_at →
      r.id ∈ expired_ids db.approval_requests t ∧ (check_approval db r.id t).fst = "expired") := by
  have hfresh : isExpired now r.created_at = false := by
    simp [isExpired, hage]
  have hrmem : r ∈ db.approval_requests := by
    have h0 : r ∈ db.approval_requests.filter (fun q => q.id == r.id) := by
      rw [huniq]
      exact List.mem_singleton_self r
    exact List.mem_of_mem_filter h0
  refine ⟨hfresh, ?_, ?_, ?_, ?_⟩
  · simp only [check_approval, huniq, List.head?_cons, hfresh, Bool.false_eq_true, if_false]
    simp [hp, statusString]
  · rw [process_decision_pending db r uid Status.approved now huniq hown hp]
  · intro hmem
    rcases List.mem_map.mp hmem with ⟨q, hq, hqid⟩
    have hqr : q = r := by
      refine eq_of_id_unique huniq (List.mem_of_mem_filter (List.mem_of_mem_filter hq)) ?_
      simp [hqid]
    have hqexp := List.of_mem_filter hq
    rw [hqr, hfresh] at hqexp
    cases hqexp
  · intro t ht
    have hexp : isExpired t r.created_at = true := by
      simp [isExpired, ht]
    constructor
    · refine List.mem_map_of_mem _ (List.mem_filter.mpr ⟨List.mem_filter.mpr ⟨hrmem, ?_⟩, hexp⟩)
      simp [hp]
    · simp only [check_approval, huniq, List.head?_cons, hexp, if_true]

/-- Witness for `expiry_boundary_strict`: the pending request of
`decideDB`, created at 0, is still reported `pending` and approvable at
`now = 30`, and is swept and reported `expired` at `now = 31`. -/
theorem expiry_boundary_strict_witness :
    isExpired 30 0 = false ∧
    check_approval decideDB "r1" 30 = ("pending", decideDB) ∧
    (process_decision decideDB "r1" (some "u") Status.approved 30).fst =
      DecideResult.decided Status.approved ∧
    "r1" ∉ expired_ids decideDB.approval_requests 30 ∧
    "r1" ∈ expired_ids decideDB.approval_requests 31 ∧
    (check_approval decideDB "r1" 31).fst = "expired" := by
  have h := expiry_boundary_strict decideDB
      ⟨"r1", "e1", "alice", "rm", Status.pending, 0, none⟩ "u" 30
      (by decide) rfl (by decide) (by decide)
  exact ⟨h.1, h.2.1, h.2.2.1, h.2.2.2.1,
         (h.2.2.2.2 31 (by decide)).1, (h.2.2.2.2 31 (by decide)).2⟩

/-- C7: `check_command` takes the endpoint id straight from the caller —
no check that the endpoint belongs to the named account or is active — so
a caller who knows account B's endpoint id and names any account A whose
blacklist holds the command creates a pending request on B's endpoint,
which `get_requests` then lists for account B. -/
theorem cross_account_request_injection (db : DB) (aid bid cmd eid newId : String)
    (e : Endpoint) (now : ℤ)
    (hbl : db.blacklist.filter (fun b => b.root_user_id == aid && b.command == cmd) ≠ [])
    (hep : db.endpoints.filter (fun x => x.id == eid) = [e])
    (howner : e.root_user_id = bid)
    (hfresh : ∀ q ∈ db.approval_requests, q.id ≠ newId) :
    (check_command db (some cmd) (some aid) (some eid) now newId).fst =
      CheckResult.blocked newId ∧
    ∃ info : PendingInfo,
      (newId, info) ∈
        (get_requests (check_command db (some cmd) (some aid) (some eid) now newId).snd
            (some bid) now).fst := by
  have hck : check_command db (some cmd) (some aid) (some eid) now newId =
      (CheckResult.blocked newId,
       { db with approval_requests := db.approval_requests ++
           [{ id := newId, endpoint_id := eid, user_name := e.user_name, command := cmd,
              status := Status.pending, created_at := now, updated_at := none }] }) := by
    simp [check_command, List.isEmpty_eq_false.mpr hbl, hep]
  rw [hck]
  refine ⟨rfl, ?_⟩
  have hnewmem : newId ∉ expired_ids (db.approval_requests ++
      [{ id := newId, endpoint_id := eid, user_name := e.user_name, command := cmd,
         status := Status.pending, created_at := now, updated_at := none }]) now := by
    intro hmem
    rcases List.mem_map.mp hmem with ⟨q, hq, hqid⟩
    have hql := List.mem_of_mem_filter (List.mem_of_mem_filter hq)
    have hqexp := List.of_mem_filter hq
    rcases List.mem_append.mp hql with hold | hnew
    · exact hfresh q hold hqid
    · have hqeq := List.mem_singleton.mp hnew
      rw [hqeq] at hqexp
      simp [isExpired] at hqexp
  have hcontains : (expired_ids (db.approval_requests ++
      [{ id := newId, endpoint_id := eid, user_name := e.user_name, command := cmd,
         status := Status.pending, created_at := now, updated_at := none }]) now).contains
        newId = false := by
    by_cases hc : (expired_ids (db.approval_requests ++
        [{ id := newId, endpoint_id := eid, user_name := e.user_name, command := cmd,
           status := Status.pending, created_at := now, updated_at := none }]) now).contains
          newId = true
    · exact absurd (List.elem_iff.mp hc) hnewmem
    · simpa using hc
  have hemem : e ∈ db.endpoints.filter (fun x => x.root_user_id == bid) := by
    refine List.mem_filter.mpr ⟨?_, by simp [howner]⟩
    have h0 : e ∈ db.endpoints.filter (fun x => x.id == eid) := by
      rw [hep]
      exact List.mem_singleton_self e
    exact List.mem_of_mem_filter h0
  have hpe : (e.id == eid) = true := by
    have h0 : e ∈ db.endpoints.filter (fun x => x.id == eid) := by
      rw [hep]
      exact List.mem_singleton_self e
    have h1 := List.of_mem_filter h0
    exact h1
  have hfind : (db.endpoints.filter (fun x => x.root_user_id == bid)).find?
      (fun x => x.id == eid) = some e := by
    refine find_of_mem_unique hemem hpe fun b hb hpb => ?_
    have hb' : b ∈ db.endpoints.filter (fun x => x.id == eid) :=
      List.mem_filter.mpr ⟨List.mem_of_mem_filter hb, hpb⟩
    rw [hep] at hb'
    exact List.mem_singleton.mp hb'
  simp only [get_requests]
  refine ⟨⟨e.user_name, cmd, now, e.name, e.hostname, e.user_name⟩, ?_⟩
  refine List.mem_filterMap.mpr
    ⟨{ id := newId, endpoint_id := eid, user_name := e.user_name, command := cmd,
       status := Status.pending, created_at := now, updated_at := none }, ?_, ?_⟩
  · refine List.mem_filter.mpr ⟨?_, ?_⟩
    · refine List.mem_filter.mpr ⟨?_, by simp⟩
      exact List.mem_append_right _ (List.mem_singleton_self _)
    · simpa using hnewmem
  · rw [hfind]
    rfl

/-- A store with two active accounts "A" and "B", where "A" blacklists
"rm" and "B" owns the endpoint "e1". -/
def crossDB : DB :=
  { root_users := [⟨"A", true⟩, ⟨"B", true⟩],
    endpoints := [⟨"e1", "B", "laptop", "host1", "10.0.0.1", "bob", "linux", true, 0⟩],
    blacklist := [⟨"A", "rm"⟩],
    approval_requests := [] }

/-- Witness for `cross_account_request_injection`: naming account "A" and
account B's endpoint "e1" plants a request that "B" then sees pending. -/
theorem cross_account_request_injection_witness :
    (check_command crossDB (some "rm") (some "A") (some "e1") 0 "r9").fst =
      CheckResult.blocked "r9" ∧
    ∃ info : PendingInfo,
      ("r9", info) ∈
        (get_requests (check_command crossDB (some "rm") (some "A") (some "e1") 0 "r9").snd
            (some "B") 0).fst :=
  cross_account_request_injection crossDB "A" "B" "rm" "e1" "r9"
    ⟨"e1", "B", "laptop", "host1", "10.0.0.1", "bob", "linux", true, 0⟩ 0
    (by decide) (by decide) rfl (fun q hq => absurd hq (List.not_mem_nil q))

/-- C8: registering the same (hostname, os-user, account) twice against an
active account returns the same endpoint id both times, the second call
adds no row, and after each call the returned endpoint is active with
last-seen set to that call's time — so the second last-seen is no earlier
than the first. -/
theorem register_idempotent (db : DB) (aid nm hn un os ip : String) (t1 t2 : ℤ)
    (id1 id2 : String)
    (hactive : db.root_users.filter (fun u => u.id == aid && u.is_active) ≠ [])
    (ht : t1 ≤ t2) :
    ∃ (eid : String) (e1 e2 : Endpoint),
      (register_endpoint db aid nm hn un os ip t1 id1).fst = RegisterResult.registered eid ∧
      (register_endpoint (register_endpoint db aid nm hn un os ip t1 id1).snd
          aid nm hn un os ip t2 id2).fst = RegisterResult.registered eid ∧
      (register_endpoint (register_endpoint db aid nm hn un os ip t1 id1).snd
          aid nm hn un os ip t2 id2).snd.endpoints.length =
        (register_endpoint db aid nm hn un os ip t1 id1).snd.endpoints.length ∧
      e1 ∈ (register_endpoint db aid nm hn un os ip t1 id1).snd.endpoints ∧
      e1.id = eid ∧ e1.is_active = true ∧ e1.last_seen = t1 ∧
      e2 ∈ (register_endpoint (register_endpoint db aid nm hn un os ip t1 id1).snd
          aid nm hn un os ip t2 id2).snd.endpoints ∧
      e2.id = eid ∧ e2.is_active = true ∧ e2.last_seen = t2 ∧
      e1.last_seen ≤ e2.last_seen := by
  have hact' : (db.root_users.filter (fun u => u.id == aid && u.is_active)).isEmpty = false :=
    List.isEmpty_eq_false.mpr hactive
  rcases hhead : (db.endpoints.filter (fun e =>
      e.hostname == hn && e.user_name == un && e.root_user_id == aid)).head? with _ | e0
  · -- no endpoint with the tuple yet: the first call inserts a fresh row
    have hnil : db.endpoints.filter (fun e =>
        e.hostname == hn && e.user_name == un && e.root_user_id == aid) = [] :=
      List.head?_eq_none_iff.mp hhead
    have h1 : register_endpoint db aid nm hn un os ip t1 id1 =
        (RegisterResult.registered id1,
         { db with endpoints := db.endpoints ++
             [{ id := id1, root_user_id := aid, name := nm, hostname := hn, ip_address := ip,
                user_name := un, os_info := os, is_active := true, last_seen := t1 }] }) := by
      simp only [register_endpoint, hact', Bool.false_eq_true, if_false, hhead]
    rw [h1]
    have hfl2 : (db.endpoints ++
        [{ id := id1, root_user_id := aid, name := nm, hostname := hn, ip_address := ip,
           user_name := un, os_info := os, is_active := true,
           last_seen := t1 : Endpoint }]).filter (fun e =>
        e.hostname == hn && e.user_name == un && e.root_user_id == aid) =
        [{ id := id1, root_user_id := aid, name := nm, hostname := hn, ip_address := ip,
           user_name := un, os_info := os, is_active := true, last_seen := t1 }] := by
      rw [List.filter_append, hnil, List.nil_append]
      simp
    have h2 : register_endpoint
        { db with endpoints := db.endpoints ++
            [{ id := id1, root_user_id := aid, name := nm, hostname := hn, ip_address := ip,
               user_name := un, os_info := os, is_active := true, last_seen := t1 }] }
        aid nm hn un os ip t2 id2 =
        (RegisterResult.registered id1,
         { db with endpoints := ((db.endpoints ++
             [{ id := id1, root_user_id := aid, name := nm, hostname := hn, ip_address := ip,
                user_name := un, os_info := os, is_active := true,
                last_seen := t1 : Endpoint }]).map
               (fun e =>
                 if e.id == id1 then
                   { e with name := nm, ip_address := ip, os_info := os,
                            last_seen := t2, is_active := true }
                 else e)) }) := by
      simp only [register_endpoint, hact', Bool.false_eq_true, if_false, hfl2,
        List.head?_cons]
    rw [h2]
    refine ⟨id1,
      { id := id1, root_user_id := aid, name := nm, hostname := hn, ip_address := ip,
        user_name := un, os_info := os, is_active := true, last_seen := t1 },
      { id := id1, root_user_id := aid, name := nm, hostname := hn, ip_address := ip,
        user_name := un, os_info := os, is_active := true, last_seen := t2 },
      rfl, rfl, by simp, ?_, rfl, rfl, rfl, ?_, rfl, rfl, rfl, ht⟩
    · exact List.mem_append_right _ (List.mem_singleton_self _)
    · have hm : (⟨id1, aid, nm, hn, ip, un, os, true, t1⟩ : Endpoint) ∈ db.endpoints ++
          [{ id := id1, root_user_id := aid, name := nm, hostname := hn, ip_address := ip,
             user_name := un, os_info := os, is_active := true, last_seen := t1 }] :=
        List.mem_append_right _ (List.mem_singleton_self _)
      have := List.mem_map_of_mem (fun e =>
          if e.id == id1 then
            { e with name := nm, ip_address := ip, os_info := os,
                     last_seen := t2, is_active := true }
          else e) hm
      simp only [beq_self_eq_true, if_true] at this
      exact this
  · -- an endpoint with the tuple exists: both calls update it in place
    have he0mem' : e0 ∈ db.endpoints.filter (fun e =>
        e.hostname == hn && e.user_name == un && e.root_user_id == aid) :=
      List.mem_of_mem_head? hhead
    have he0mem : e0 ∈ db.endpoints := List.mem_of_mem_filter he0mem'
    have h1 : register_endpoint db aid nm hn un os ip t1 id1 =
        (RegisterResult.registered e0.id,
         { db with endpoints := db.endpoints.map (fun e =>
             if e.id == e0.id then
               { e with name := nm, ip_address := ip, os_info := os,
                        last_seen := t1, is_active := true }
             else e) }) := by
      simp only [register_endpoint, hact', Bool.false_eq_true, if_false, hhead]
    rw [h1]
    have hpres : ∀ e : Endpoint,
        ((fun x => x.hostname == hn && x.user_name == un && x.root_user_id == aid)
          (if e.id == e0.id then
             { e with name := nm, ip_address := ip, os_info := os,
                      last_seen := t1, is_active := true }
           else e)) =
        ((fun x => x.hostname == hn && x.user_name == un && x.root_user_id == aid) e) := by
      intro e
      by_cases hid : (e.id == e0.id) = true <;> simp [hid]
    have hfl2 : ((db.endpoints.map (fun e =>
        if e.id == e0.id then
          { e with name := nm, ip_address := ip, os_info := os,
                   last_seen := t1, is_active := true }
        else e)).filter (fun e =>
          e.hostname == hn && e.user_name == un && e.root_user_id == aid)).head? =
        some { e0 with name := nm, ip_address := ip, os_info := os,
                       last_seen := t1, is_active := true } := by
      rw [filter_map_invariant _ _ hpres, List.head?_map, hhead]
      simp
    have h2 : register_endpoint
        { db with endpoints := db.endpoints.map (fun e =>
            if e.id == e0.id then
              { e with name := nm, ip_address := ip, os_info := os,
                       last_seen := t1, is_active := true }
            else e) }
        aid nm hn un os ip t2 id2 =
        (RegisterResult.registered e0.id,
         { db with endpoints := (db.endpoints.map (fun e =>
             if e.id == e0.id then
               { e with name := nm, ip_address := ip, os_info := os,
                        last_seen := t1, is_active := true }
             else e)).map (fun e =>
               if e.id == e0.id then
                 { e with name := nm, ip_address := ip, os_info := os,
                          last_seen := t2, is_active := true }
               else e) }) := by
      simp only [register_endpoint, hact', Bool.false_eq_true, if_false, hfl2]
    rw [h2]
    refine ⟨e0.id,
      { e0 with name := nm, ip_address := ip, os_info := os,
                last_seen := t1, is_active := true },
      { e0 with name := nm, ip_address := ip, os_info := os,
                last_seen := t2, is_active := true },
      rfl, rfl, by simp, ?_, rfl, rfl, rfl, ?_, rfl, rfl, rfl, ht⟩
    · have := List.mem_map_of_mem (fun e =>
          if e.id == e0.id then
            { e with name := nm, ip_address := ip, os_info := os,
                     last_seen := t1, is_active := true }
          else e) he0mem
      simpa using this
    · have hm1 := List.mem_map_of_mem (fun e =>
          if e.id == e0.id then
            { e with name := nm, ip_address := ip, os_info := os,
                     last_seen := t1, is_active := true }
          else e) he0mem
      simp only [beq_self_eq_true, if_true] at hm1
      have hm2 := List.mem_map_of_mem (fun e =>
          if e.id == e0.id then
            { e with name := nm, ip_address := ip, os_info := os,
                     last_seen := t2, is_active := true }
          else e) hm1
      simpa using hm2

/-- A store holding only the active account "u". -/
def regDB : DB :=
  { root_users := [⟨"u", true⟩], endpoints := [], blacklist := [], approval_requests := [] }

/-- Witness for `register_idempotent`: registering ("host1", "alice", "u")
at time 1 and again at time 2 returns one id, keeps one row, and advances
last-seen from 1 to 2. -/
theorem register_idempotent_witness :
    ∃ (eid : String) (e1 e2 : Endpoint),
      (register_endpoint regDB "u" "lap" "host1" "alice" "linux" "ip" 1 "e1").fst =
        RegisterResult.registered eid ∧
      (register_endpoint (register_endpoint regDB "u" "lap" "host1" "alice" "linux" "ip" 1 "e1").snd
          "u" "lap" "host1" "alice" "linux" "ip" 2 "e2").fst = RegisterResult.registered eid ∧
      (register_endpoint (register_endpoint regDB "u" "lap" "host1" "alice" "linux" "ip" 1 "e1").snd
          "u" "lap" "host1" "alice" "linux" "ip" 2 "e2").snd.endpoints.length =
        (register_endpoint regDB "u" "lap" "host1" "alice" "linux" "ip" 1 "e1").snd.endpoints.length ∧
      e1 ∈ (register_endpoint regDB "u" "lap" "host1" "alice" "linux" "ip" 1 "e1").snd.endpoints ∧
      e1.id = eid ∧ e1.is_active = true ∧ e1.last_seen = 1 ∧
      e2 ∈ (register_endpoint (register_endpoint regDB "u" "lap" "host1" "alice" "linux" "ip" 1 "e1").snd
          "u" "lap" "host1" "alice" "linux" "ip" 2 "e2").snd.endpoints ∧
      e2.id = eid ∧ e2.is_active = true ∧ e2.last_seen = 2 ∧
      e1.last_seen ≤ e2.last_seen :=
  register_idempotent regDB "u" "lap" "host1" "alice" "linux" "ip" 1 2 "e1" "e2"
    (by decide) (by decide)

end SafeCli
